import Mathlib

/-!
Verification development for the email-inference and verification engine of
`data_pipelining/scripts/validate_emails.py`.

The Python module is shallowly embedded here:

* Python dictionaries become insertion-ordered association lists
  (`alGet?` / `alSet` mirror `d.get(k)` / `d[k] = v`).
* The dynamic pattern database (`PatternStore`) stores JSON scalars that are
  either usage counts (ints) or catch-all booleans, modelled by `JVal`.
* Pure string helpers (`strip`, `lower`, `replace`, `split`, `str.format` on
  the fixed fallback templates) are re-implemented on character lists so that
  every definition is executable by the kernel.
* The external verification provider (MillionVerifier) is a parameter:
  a transport function for the retry loop and, at the lead-validation level,
  a function from an email address to the optional parsed response
  (`none` models "all retries failed or falsy response body").
* `validate_one_lead` returns, besides the annotated row and updated store,
  the list of addresses for which a verification call was issued, so that
  claims about "zero network calls" are statable.  Row access is fallible
  (`Except`), modelling Python `KeyError` for absent columns.
* Persistence (`json.dump` / `json.load`) is modelled at the JSON-tree level
  by `save_dynamic_db` / `load_dynamic_db`.
-/

/-! ## Association lists (Python dict) -/

/-- `d.get(k)`: first-match lookup in an insertion-ordered association list. -/
def alGet? {α : Type} : List (String × α) → String → Option α
  | [], _ => none
  | (k, v) :: rest, key => if k = key then some v else alGet? rest key

/-- `d[k] = v`: replace in place if the key exists, else append at the end
(Python dicts preserve insertion order). -/
def alSet {α : Type} : List (String × α) → String → α → List (String × α)
  | [], key, v => [(key, v)]
  | (k, w) :: rest, key, v =>
    if k = key then (key, v) :: rest else (k, w) :: alSet rest key v

/-! ## JSON scalar values stored in the dynamic DB -/

/-- A scalar stored in the dynamic DB: a usage count (int) or a catch-all
flag (bool), matching what the Python code writes into the same dict. -/
inductive JVal where
  | num (n : Nat)
  | bool (b : Bool)
deriving DecidableEq, Repr

/-- Numeric view of a scalar, matching Python `True == 1`, `False == 0`. -/
def JVal.toNat : JVal → Nat
  | .num n => n
  | .bool b => if b then 1 else 0

/-- Python truthiness of a stored scalar. -/
def JVal.truthy : JVal → Bool
  | .num n => n != 0
  | .bool b => b

/-- The dynamic email-format DB (`dynamic_email_format_db.json`):
domain → (pattern key → scalar).  The reserved top-level key
`"_catchall_domains"` maps domain → flag, exactly as in the Python module. -/
abbrev DynamicDB := List (String × List (String × JVal))

/-- Usage count of pattern `p` for domain `d` (0 when absent). -/
def usage (db : DynamicDB) (d p : String) : Nat :=
  ((alGet? ((alGet? db d).getD []) p).getD (JVal.num 0)).toNat

/-! ## String helpers (Python str methods, kernel-executable) -/

/-- `startsWithL s pat`: does the char list `s` start with `pat`? -/
def startsWithL : List Char → List Char → Bool
  | _, [] => true
  | [], _ :: _ => false
  | c :: cs, d :: ds => (c == d) && startsWithL cs ds

/-- Python `s.startswith(pre)`. -/
def pyStartsWith (s pre : String) : Bool :=
  startsWithL s.data pre.data

/-- Python `s.lower()` (ASCII case fold, which is all the engine needs). -/
def pyLower (s : String) : String :=
  ⟨s.data.map Char.toLower⟩

/-- Python `s.strip()`: drop whitespace at both ends. -/
def pyStrip (s : String) : String :=
  ⟨((s.data.dropWhile Char.isWhitespace).reverse.dropWhile Char.isWhitespace).reverse⟩

/-- Fuel-indexed worker for `str.replace`; the fuel is the length of the
scanned string, which bounds the number of scanning steps. -/
def replaceGo (pat rep : List Char) : Nat → List Char → List Char
  | _, [] => []
  | 0, s => s
  | Nat.succ fuel, c :: cs =>
    if startsWithL (c :: cs) pat then
      rep ++ replaceGo pat rep fuel (List.drop pat.length (c :: cs))
    else
      c :: replaceGo pat rep fuel cs

/-- Python `s.replace(pat, rep)` (all non-overlapping occurrences, left to
right; the engine only ever calls it with non-empty `pat`). -/
def pyReplace (s pat rep : String) : String :=
  ⟨replaceGo pat.data rep.data s.data.length s.data⟩

/-- One splitting pass of Python `s.split(sep)` for a single-char separator. -/
def splitOnCharGo (sep : Char) (acc : List Char) : List Char → List (List Char)
  | [] => [acc.reverse]
  | c :: cs =>
    if c == sep then acc.reverse :: splitOnCharGo sep [] cs
    else splitOnCharGo sep (c :: acc) cs

/-! ## Fallback patterns and pattern rendering -/

/-- `FALLBACK_PATTERNS`: the fixed fallback templates, in the dict's
insertion order (validate_emails.py lines 109-114). -/
def FALLBACK_PATTERNS : List (String × String) :=
  [("first", "\x7bfirst\x7d"),
   ("first.last", "\x7bfirst\x7d.\x7blast\x7d"),
   ("first_\x7blast\x7d", "\x7bfirst\x7d_\x7blast\x7d"),
   ("firstInitial.last", "\x7bfirstInitial\x7d.\x7blast\x7d")]

/-- Simultaneous substitution of the `\x7bfirst\x7d`, `\x7blast\x7d` and
`\x7bfirstInitial\x7d` fields, as `str.format` performs on the fixed
fallback templates (substituted values are not re-scanned). -/
def formatGo (first last firstInitial : List Char) : Nat → List Char → List Char
  | _, [] => []
  | 0, s => s
  | Nat.succ fuel, c :: cs =>
    if startsWithL (c :: cs) "\x7bfirst\x7d".data then
      first ++ formatGo first last firstInitial fuel (List.drop 7 (c :: cs))
    else if startsWithL (c :: cs) "\x7blast\x7d".data then
      last ++ formatGo first last firstInitial fuel (List.drop 6 (c :: cs))
    else if startsWithL (c :: cs) "\x7bfirstInitial\x7d".data then
      firstInitial ++ formatGo first last firstInitial fuel (List.drop 14 (c :: cs))
    else
      c :: formatGo first last firstInitial fuel cs

/-- `apply_pattern` (validate_emails.py lines 116-141): convert a pattern key
into the email local part.  Known fallback keys are rendered through their
template with `str.format`; `customPattern:` keys get the four literal
`str.replace` substitutions, in the source's order; anything else gives `""`. -/
def apply_pattern (pattern_key first last : String) : String :=
  let firstInitial : String := ⟨first.data.take 1⟩
  match alGet? FALLBACK_PATTERNS pattern_key with
  | some template =>
    ⟨formatGo first.data last.data firstInitial.data template.data.length template.data⟩
  | none =>
    if pyStartsWith pattern_key "customPattern:" then
      let custom_template : String := ⟨pattern_key.data.drop 14⟩
      pyReplace
        (pyReplace
          (pyReplace
            (pyReplace custom_template "\x7bfirst[0]\x7d" firstInitial)
            "\x7bfirst_0\x7d" firstInitial)
          "\x7bfirst\x7d" first)
        "\x7blast\x7d" last
    else ""

/-! ## Dynamic DB operations -/

/-- `record_email_usage` (lines 143-152): bump the usage counter of
`pattern_key` for `domain` (Python `old_val + 1`, where a stored `True`
counts as 1). -/
def record_email_usage (db : DynamicDB) (domain pattern_key : String) : DynamicDB :=
  let dmap := (alGet? db domain).getD []
  let old_val := ((alGet? dmap pattern_key).getD (JVal.num 0)).toNat
  alSet db domain (alSet dmap pattern_key (JVal.num (old_val + 1)))

/-- Sort key used by `sorted_patterns_by_usage`: the stored scalar viewed as
a number (Python compares bools and ints numerically). -/
def usageKey (usage_map : List (String × JVal)) (p : String) : Nat :=
  ((alGet? usage_map p).getD (JVal.num 0)).toNat

/-- Stable descending insertion: place `x` before the first element whose
key is `≤ key x`.  This realises Python's stable `sorted(..., reverse=True)`. -/
def insertDesc (key : String → Nat) (x : String) : List String → List String
  | [] => [x]
  | y :: ys => if key y ≤ key x then x :: y :: ys else y :: insertDesc key x ys

/-- Stable descending insertion sort (Python `sorted(keys, key=..., reverse=True)`). -/
def isortDesc (key : String → Nat) : List String → List String
  | [] => []
  | x :: xs => insertDesc key x (isortDesc key xs)

/-- `sorted_patterns_by_usage` (lines 154-165): pattern keys of a domain
sorted by usage descending, with underscore-prefixed keys filtered out. -/
def sorted_patterns_by_usage (db : DynamicDB) (domain : String) : List String :=
  match alGet? db domain with
  | none => []
  | some usage_map =>
    let patterns := isortDesc (usageKey usage_map) (usage_map.map Prod.fst)
    patterns.filter (fun p => !(pyStartsWith p "_"))

/-- `parse_static_pattern` (lines 173-196): split the static hint at `@`;
with fewer than two parts return `None`; otherwise return the fallback key
whose template is textually identical to the local part, else a
`customPattern:` key carrying the local part. -/
def parse_static_pattern (static_pattern_str : String) : Option String :=
  match splitOnCharGo '@' [] static_pattern_str.data with
  | p0 :: _ :: _ =>
    let localPart : String := ⟨p0⟩
    match FALLBACK_PATTERNS.find? (fun kv => kv.2 == localPart) with
    | some kv => some kv.1
    | none => some ("customPattern:" ++ localPart)
  | _ => none

/-- `is_domain_catchall` (lines 201-206): truthiness of
`db.get("_catchall_domains", \x7b\x7d).get(domain_key, False)`. -/
def is_domain_catchall (db : DynamicDB) (domain_key : String) : Bool :=
  let catchall_info := (alGet? db "_catchall_domains").getD []
  ((alGet? catchall_info domain_key).getD (JVal.bool false)).truthy

/-- `mark_domain_catchall` (lines 208-216). -/
def mark_domain_catchall (db : DynamicDB) (domain_key : String) : DynamicDB :=
  let catchall_info := (alGet? db "_catchall_domains").getD []
  alSet db "_catchall_domains" (alSet catchall_info domain_key (JVal.bool true))

/-! ## Candidate pattern sequence (PatternGenerator) -/

/-- Step (a) of `validate_one_lead` (lines 264-269): the static hint of the
domain translated to a pattern key, as a zero- or one-element list. -/
def static_hint_key (email_formats : List (String × String)) (domain_key : String) :
    List String :=
  let static_pattern_str := (alGet? email_formats domain_key).getD ""
  if static_pattern_str = "" then []
  else
    match parse_static_pattern static_pattern_str with
    | some parsed_key => [parsed_key]
    | none => []

/-- Step (c) of `validate_one_lead` (line 276): the fixed fallback keys in
their canonical order. -/
def fallback_order : List String :=
  ["first", "first.last", "first_\x7blast\x7d", "firstInitial.last"]

/-- The dedup loop of `validate_one_lead` (lines 282-288): keep the first
occurrence of each key, tracked by a `seen` set. -/
def dedup_go (seen : List String) : List String → List String
  | [] => []
  | pk :: rest =>
    if pk ∈ seen then dedup_go seen rest
    else pk :: dedup_go (pk :: seen) rest

/-- Steps (a)-(c) plus dedup of `validate_one_lead` (lines 261-288): the
ordered candidate pattern-key sequence for one lead. -/
def build_pattern_keys (email_formats : List (String × String)) (db : DynamicDB)
    (domain_key : String) : List String :=
  let l2 := static_hint_key email_formats domain_key ++ sorted_patterns_by_usage db domain_key
  let l3 := fallback_order.foldl (fun acc fb => if fb ∈ acc then acc else acc ++ [fb]) l2
  dedup_go [] l3

/-- Specification-side dedup, following the spec's words: "Any key already
present earlier in the sequence is omitted on reoccurrence (first occurrence
wins)".  Used only to compare with the code's candidate sequence. -/
def dedupKeepFirst : List String → List String
  | [] => []
  | x :: xs => x :: dedupKeepFirst (xs.filter (fun y => !(y == x)))
termination_by l => l.length
decreasing_by
  simp only [List.length_cons]
  exact Nat.lt_succ_of_le (List.length_filter_le _ _)

/-! ## VerificationClient (`verify_email_millionverifier`, lines 80-104) -/

/-- The retry loop of `verify_email_millionverifier`.  `transport i` is the
outcome of the `i`-th HTTP attempt: `.error ()` models a raised transport
exception, `.ok code?` a parsed JSON body whose optional `resultcode` is
`code?` (`none` also stands for a falsy body, which the caller treats the
same way).  The second argument is the attempt index, the third the number
of attempts left. -/
def mv_attempts (transport : Nat → Except Unit (Option Int)) :
    Nat → Nat → Option (Option Int)
  | _, 0 => none
  | attempt, remaining + 1 =>
    match transport attempt with
    | .ok data => some data
    | .error _ => mv_attempts transport (attempt + 1) remaining

/-- `verify_email_millionverifier` (lines 80-104): up to `retries` attempts,
returning the first successfully parsed response, or `none` after the last
attempt fails (the Python function returns `None` then, never raising). -/
def verify_email_millionverifier (transport : Nat → Except Unit (Option Int))
    (retries : Nat) : Option (Option Int) :=
  mv_attempts transport 0 retries

/-! ## LeadValidator (`validate_one_lead`, lines 221-346) -/

/-- A spreadsheet row: an insertion-ordered dict from column name to cell. -/
abbrev Row := List (String × String)

/-- The column pre-assignment `row["EMAIL STATUS"] = "Invalid"`,
`row["VALIDATED EMAIL"] = ""`, performed both at the start of
`validate_one_lead` (lines 229-230) and by `validate_leads` (lines 376-377). -/
def initRow (r : Row) : Row :=
  alSet (alSet r "EMAIL STATUS" "Invalid") "VALIDATED EMAIL" ""

/-- The candidate loop of `validate_one_lead` (lines 293-346).  `mv e` is the
result of `verify_email_millionverifier` for address `e` (`none` = all
retries failed or falsy body).  Returns the annotated row, the updated DB and
the list of addresses for which a verification call was issued, in order. -/
def try_patterns (first last domain_key : String) (bad_emails : List String)
    (mv : String → Option (Option Int)) (row : Row) (db : DynamicDB) :
    List String → Row × DynamicDB × List String
  | [] => (row, db, [])
  | pk :: rest =>
    let px := apply_pattern pk first last
    if px = "" then try_patterns first last domain_key bad_emails mv row db rest
    else
      let email_address := px ++ "@" ++ domain_key
      if email_address ∈ bad_emails then
        try_patterns first last domain_key bad_emails mv row db rest
      else
        match mv email_address with
        | none =>
          let r := try_patterns first last domain_key bad_emails mv row db rest
          (r.1, r.2.1, email_address :: r.2.2)
        | some code =>
          if code = some 1 then
            (alSet (alSet row "EMAIL STATUS" "Valid") "VALIDATED EMAIL" email_address,
             record_email_usage db domain_key pk,
             [email_address])
          else if code = some 2 then
            (alSet (alSet row "EMAIL STATUS" "Catch-All") "VALIDATED EMAIL" email_address,
             mark_domain_catchall db domain_key,
             [email_address])
          else
            let r := try_patterns first last domain_key bad_emails mv row db rest
            (r.1, r.2.1, email_address :: r.2.2)

/-- The catch-all display local part synthesised by the catch-all
short-circuit of `validate_one_lead` (lines 246-254): from the static hint
when one exists, else the `first.last` fallback. -/
def catchall_display_px (email_formats : List (String × String))
    (domain_key first last : String) : String :=
  let static_pattern_str := (alGet? email_formats domain_key).getD ""
  if static_pattern_str = "" then first ++ "." ++ last
  else
    match parse_static_pattern static_pattern_str with
    | some parsed_key => apply_pattern parsed_key first last
    | none => ""

/-- The body of `validate_one_lead` after name/company extraction
(lines 240-346): catch-all short-circuit, else the candidate loop. -/
def resolve_lead (first last domain_key : String) (bad_emails : List String)
    (email_formats : List (String × String)) (dynamic_db : DynamicDB)
    (mv : String → Option (Option Int)) (row : Row) :
    Row × DynamicDB × List String :=
  if is_domain_catchall dynamic_db domain_key then
    let px := catchall_display_px email_formats domain_key first last
    (alSet (alSet row "EMAIL STATUS" "Catch-All") "VALIDATED EMAIL"
       (if px = "" then "" else px ++ "@" ++ domain_key),
     dynamic_db, [])
  else
    try_patterns first last domain_key bad_emails mv row dynamic_db
      (build_pattern_keys email_formats dynamic_db domain_key)

/-- `CompanyDomain` (lines 234-235): lowercase trimmed company name with
spaces removed, suffixed `.com`. -/
def company_domain (comp : String) : String :=
  pyReplace (pyLower (pyStrip comp)) " " "" ++ ".com"

/-- `validate_one_lead` (lines 221-346).  Row access is fallible: a missing
column raises `KeyError` in Python, modelled by `.error`.  On success the
result carries the annotated row, the updated dynamic DB and the trace of
addresses submitted to the verifier. -/
def validate_one_lead (row : Row) (bad_emails : List String)
    (email_formats : List (String × String)) (dynamic_db : DynamicDB)
    (mv : String → Option (Option Int)) :
    Except String (Row × DynamicDB × List String) :=
  match alGet? (initRow row) "FIRST NAME" with
  | none => .error "KeyError: FIRST NAME"
  | some f =>
  match alGet? (initRow row) "LAST NAME" with
  | none => .error "KeyError: LAST NAME"
  | some l =>
  match alGet? (initRow row) "COMPANY" with
  | none => .error "KeyError: COMPANY"
  | some comp =>
    .ok (resolve_lead (pyLower (pyStrip f)) (pyLower (pyStrip l))
          (company_domain comp)
          bad_emails email_formats dynamic_db mv (initRow row))

/-! ## ValidationRunner (`validate_leads`, lines 351-416) -/

/-- Drop a column from a row (`drop(columns=["EMAIL"])`). -/
def rowDrop (r : Row) (k : String) : Row :=
  r.filter (fun kv => !(kv.1 == k))

/-- The `EMAIL STATUS` cell of a row (columns are always present on output). -/
def statusOf (r : Row) : String := (alGet? r "EMAIL STATUS").getD ""

/-- The `COMPANY` cell of a row. -/
def companyOf (r : Row) : String := (alGet? r "COMPANY").getD ""

/-- Lexicographic (code-point) strict comparison of char lists, as Python
compares strings. -/
def charListLt : List Char → List Char → Bool
  | [], [] => false
  | [], _ :: _ => true
  | _ :: _, [] => false
  | c :: cs, d :: ds => if c < d then true else if d < c then false else charListLt cs ds

/-- String `≤` used by the company sort (`sort_values(by="COMPANY")`). -/
def strLeB (a b : String) : Bool := !(charListLt b.data a.data)

/-- Ascending insertion step for the company sort. -/
def insertAsc (x : Row) : List Row → List Row
  | [] => [x]
  | y :: ys => if strLeB (companyOf x) (companyOf y) then x :: y :: ys else y :: insertAsc x ys

/-- `sort_values(by="COMPANY", ascending=True)`, modelled as insertion sort
(the claimlevel property is only "sorted ascending by company"). -/
def isortRowsByCompany : List Row → List Row
  | [] => []
  | x :: xs => insertAsc x (isortRowsByCompany xs)

/-- Sequential fold of `validate_one_lead` over the batch, threading the
shared dynamic DB (one legal schedule of the thread pool); the first
`KeyError` aborts the batch, as an exception in a worker would. -/
def validate_rows (bad_emails : List String) (email_formats : List (String × String))
    (mv : String → Option (Option Int)) :
    List Row → DynamicDB → Except String (List Row × DynamicDB)
  | [], db => .ok ([], db)
  | r :: rs, db =>
    match validate_one_lead r bad_emails email_formats db mv with
    | .error e => .error e
    | .ok (r', db', _calls) =>
      match validate_rows bad_emails email_formats mv rs db' with
      | .error e => .error e
      | .ok (rs', dbF) => .ok (r' :: rs', dbF)

/-- `validate_leads` (lines 351-416): annotate every row, drop the `EMAIL`
column, and produce the full view plus the Valid/Catch-All view sorted by
company ascending, together with the final dynamic DB. -/
def validate_leads (rows : List Row) (bad_emails : List String)
    (email_formats : List (String × String)) (dynamic_db : DynamicDB)
    (mv : String → Option (Option Int)) :
    Except String (List Row × List Row × DynamicDB) :=
  match validate_rows bad_emails email_formats mv (rows.map initRow) dynamic_db with
  | .error e => .error e
  | .ok (results, dbF) =>
    let updated_leads := results.map (fun r => rowDrop r "EMAIL")
    let valid_df := updated_leads.filter
      (fun r => (statusOf r == "Valid") || (statusOf r == "Catch-All"))
    .ok (updated_leads, isortRowsByCompany valid_df, dbF)

/-! ## Persistence (`save_dynamic_db` / `load_dynamic_db`, lines 48-75) -/

/-- JSON trees, the durable form written by `json.dump`. -/
inductive Json where
  | num (n : Nat)
  | bool (b : Bool)
  | str (s : String)
  | arr (elems : List Json)
  | obj (fields : List (String × Json))

/-- Encode a stored scalar. -/
def encodeJVal : JVal → Json
  | .num n => .num n
  | .bool b => .bool b

/-- Encode one domain's pattern map. -/
def encodePatternMap : List (String × JVal) → List (String × Json)
  | [] => []
  | (k, v) :: rest => (k, encodeJVal v) :: encodePatternMap rest

/-- Encode the top-level DB object. -/
def encodeDomains : DynamicDB → List (String × Json)
  | [] => []
  | (d, m) :: rest => (d, .obj (encodePatternMap m)) :: encodeDomains rest

/-- `save_dynamic_db` (lines 70-75): the JSON tree `json.dump` serialises. -/
def save_dynamic_db (db : DynamicDB) : Json :=
  .obj (encodeDomains db)

/-- Decode a stored scalar. -/
def decodeJVal : Json → Option JVal
  | .num n => some (.num n)
  | .bool b => some (.bool b)
  | _ => none

/-- Decode one domain's pattern map. -/
def decodePatternMap : List (String × Json) → Option (List (String × JVal))
  | [] => some []
  | (k, j) :: rest =>
    match decodeJVal j, decodePatternMap rest with
    | some v, some m => some ((k, v) :: m)
    | _, _ => none

/-- Decode the top-level DB object. -/
def decodeDomains : List (String × Json) → Option DynamicDB
  | [] => some []
  | (d, Json.obj fields) :: rest =>
    match decodePatternMap fields, decodeDomains rest with
    | some m, some db => some ((d, m) :: db)
    | _, _ => none
  | _ :: _ => none

/-- `load_dynamic_db` (lines 48-68): a missing, empty or undecodable durable
store yields the empty DB (never an error); otherwise the parsed mapping. -/
def load_dynamic_db : Option Json → DynamicDB
  | none => []
  | some (Json.obj fields) => (decodeDomains fields).getD []
  | some _ => []

/-! ## Result projections (used to state claims without binders) -/

/-- The annotated row of a successful validation. -/
def okRow (r : Except String (Row × DynamicDB × List String)) : Option Row :=
  match r with
  | .ok t => some t.1
  | .error _ => none

/-- The updated DB of a successful validation. -/
def okDb (r : Except String (Row × DynamicDB × List String)) : Option DynamicDB :=
  match r with
  | .ok t => some t.2.1
  | .error _ => none

/-- The verification-call trace of a successful validation. -/
def okCalls (r : Except String (Row × DynamicDB × List String)) : Option (List String) :=
  match r with
  | .ok t => some t.2.2
  | .error _ => none

/-- A row with the engine-written columns (`EMAIL`, `EMAIL STATUS`,
`VALIDATED EMAIL`) removed: what identifies the original input row. -/
def stripAnnotations (r : Row) : Row :=
  r.filter (fun kv =>
    !((kv.1 == "EMAIL") || (kv.1 == "EMAIL STATUS") || (kv.1 == "VALIDATED EMAIL")))

/-! ## Lemmas: association lists -/

theorem alGet?_alSet_self {α : Type} (m : List (String × α)) (k : String) (v : α) :
    alGet? (alSet m k v) k = some v := by
  induction m with
  | nil => simp [alSet, alGet?]
  | cons kv rest ih =>
    obtain ⟨k1, w⟩ := kv
    by_cases h : k1 = k
    · subst h; simp [alSet, alGet?]
    · simp [alSet, alGet?, h, ih]

theorem alGet?_alSet_ne {α : Type} (m : List (String × α)) (k k' : String) (v : α)
    (h : k' ≠ k) : alGet? (alSet m k v) k' = alGet? m k' := by
  induction m with
  | nil => simp [alSet, alGet?, Ne.symm h]
  | cons kv rest ih =>
    obtain ⟨k1, w⟩ := kv
    by_cases hk : k1 = k
    · subst hk
      simp [alSet, alGet?, Ne.symm h]
    · simp [alSet, alGet?, hk, ih]

/-! ## Lemmas: usage counts -/

theorem usage_record_self (db : DynamicDB) (d p : String) :
    usage (record_email_usage db d p) d p = usage db d p + 1 := by
  simp [usage, record_email_usage, alGet?_alSet_self, JVal.toNat]

theorem usage_record_ne (db : DynamicDB) (d p d' p' : String)
    (h : d' ≠ d ∨ p' ≠ p) : usage (record_email_usage db d p) d' p' = usage db d' p' := by
  rcases h with h | h
  · simp [usage, record_email_usage, alGet?_alSet_ne _ _ _ _ h]
  · by_cases hd : d' = d
    · subst hd
      simp [usage, record_email_usage, alGet?_alSet_self, alGet?_alSet_ne _ _ _ _ h]
    · simp [usage, record_email_usage, alGet?_alSet_ne _ _ _ _ hd]

theorem usage_mark (db : DynamicDB) (d d' p' : String)
    (h : d' ≠ "_catchall_domains") :
    usage (mark_domain_catchall db d) d' p' = usage db d' p' := by
  simp [usage, mark_domain_catchall, alGet?_alSet_ne _ _ _ _ h]

/-! ## Lemmas: row initialisation -/

theorem alGet?_initRow_of_ne (r : Row) (k : String)
    (h1 : k ≠ "EMAIL STATUS") (h2 : k ≠ "VALIDATED EMAIL") :
    alGet? (initRow r) k = alGet? r k := by
  simp [initRow, alGet?_alSet_ne _ _ _ _ h2, alGet?_alSet_ne _ _ _ _ h1]
/-! ## Lemmas: the candidate loop -/

theorem try_patterns_cases (first last dk : String) (bad : List String)
    (mv : String → Option (Option Int)) (row : Row) (db : DynamicDB)
    (keys : List String) :
    (try_patterns first last dk bad mv row db keys).2.1 = db
    ∨ (try_patterns first last dk bad mv row db keys).2.1 = mark_domain_catchall db dk
    ∨ ∃ pk,
        (try_patterns first last dk bad mv row db keys).2.1 = record_email_usage db dk pk
        ∧ alGet? (try_patterns first last dk bad mv row db keys).1 "EMAIL STATUS"
            = some "Valid"
        ∧ alGet? (try_patterns first last dk bad mv row db keys).1 "VALIDATED EMAIL"
            = some (apply_pattern pk first last ++ "@" ++ dk)
        ∧ mv (apply_pattern pk first last ++ "@" ++ dk) = some (some 1) := by
  induction keys with
  | nil => left; rfl
  | cons pk rest ih =>
    by_cases hpx : apply_pattern pk first last = ""
    · simpa only [try_patterns, hpx, if_pos rfl] using ih
    · by_cases hbad : (apply_pattern pk first last ++ "@" ++ dk) ∈ bad
      · simpa only [try_patterns, hpx, if_neg hpx, if_pos hbad] using ih
      · rcases hmv : mv (apply_pattern pk first last ++ "@" ++ dk) with _ | code
        · simpa only [try_patterns, if_neg hpx, if_neg hbad, hmv] using ih
        · by_cases h1 : code = some 1
          · subst h1
            right; right
            refine ⟨pk, ?_, ?_, ?_, hmv⟩
            · simp [try_patterns, if_neg hpx, if_neg hbad, hmv]
            · simp only [try_patterns, if_neg hpx, if_neg hbad, hmv]
              simp [alGet?_alSet_self,
                alGet?_alSet_ne (alSet row "EMAIL STATUS" "Valid") "VALIDATED EMAIL"
                  "EMAIL STATUS" (apply_pattern pk first last ++ "@" ++ dk) (by decide)]
            · simp only [try_patterns, if_neg hpx, if_neg hbad, hmv]
              simp [alGet?_alSet_self]
          · by_cases h2 : code = some 2
            · subst h2
              right; left
              simp [try_patterns, if_neg hpx, if_neg hbad, hmv, h1]
            · simpa only [try_patterns, if_neg hpx, if_neg hbad, hmv, if_neg h1,
                if_neg h2] using ih

/-- Successful validation factors through `resolve_lead` on the extracted,
normalised fields. -/
theorem validate_one_lead_ok_resolve (row : Row) (bad : List String)
    (fm : List (String × String)) (db : DynamicDB)
    (mv : String → Option (Option Int)) (t : Row × DynamicDB × List String)
    (h : validate_one_lead row bad fm db mv = .ok t) :
    ∃ f l comp,
      alGet? (initRow row) "FIRST NAME" = some f
      ∧ alGet? (initRow row) "LAST NAME" = some l
      ∧ alGet? (initRow row) "COMPANY" = some comp
      ∧ t = resolve_lead (pyLower (pyStrip f)) (pyLower (pyStrip l))
              (company_domain comp)
              bad fm db mv (initRow row) := by
  unfold validate_one_lead at h
  rcases hf : alGet? (initRow row) "FIRST NAME" with _ | f <;> rw [hf] at h
  · simp at h
  rcases hl : alGet? (initRow row) "LAST NAME" with _ | l <;> rw [hl] at h
  · simp at h
  rcases hc : alGet? (initRow row) "COMPANY" with _ | comp <;> rw [hc] at h
  · simp at h
  simp only [Except.ok.injEq] at h
  exact ⟨f, l, comp, rfl, rfl, rfl, h.symm⟩

/-- The shape of the DB returned by `resolve_lead`: unchanged, one catch-all
mark, or one usage increment for the resolved domain. -/
theorem resolve_lead_db_shape (first last dk : String) (bad : List String)
    (fm : List (String × String)) (db : DynamicDB)
    (mv : String → Option (Option Int)) (row : Row) :
    (resolve_lead first last dk bad fm db mv row).2.1 = db
    ∨ (resolve_lead first last dk bad fm db mv row).2.1 = mark_domain_catchall db dk
    ∨ ∃ pk, (resolve_lead first last dk bad fm db mv row).2.1
        = record_email_usage db dk pk := by
  unfold resolve_lead
  by_cases hca : is_domain_catchall db dk = true
  · rw [if_pos hca]
    left
    rfl
  · rw [if_neg hca]
    rcases try_patterns_cases first last dk bad mv row db
        (build_pattern_keys fm db dk) with hdb | hdb | ⟨pk, hdb, _⟩
    · exact Or.inl hdb
    · exact Or.inr (Or.inl hdb)
    · exact Or.inr (Or.inr ⟨pk, hdb⟩)

/-- Usage counts outside the reserved key never decrease in one lead. -/
theorem validate_one_lead_usage_mono (row : Row) (bad : List String)
    (fm : List (String × String)) (db : DynamicDB)
    (mv : String → Option (Option Int)) (t : Row × DynamicDB × List String)
    (h : validate_one_lead row bad fm db mv = .ok t)
    (d p : String) (hd : d ≠ "_catchall_domains") :
    usage db d p ≤ usage t.2.1 d p := by
  obtain ⟨f, l, comp, _, _, _, ht⟩ := validate_one_lead_ok_resolve row bad fm db mv t h
  rw [ht]
  rcases resolve_lead_db_shape (pyLower (pyStrip f)) (pyLower (pyStrip l))
      (company_domain comp) bad fm db mv (initRow row) with
    hdb | hdb | ⟨pk, hdb⟩
  · rw [hdb]
  · rw [hdb, usage_mark db _ d p hd]
  · rw [hdb]
    by_cases hdk : d = company_domain comp
    · by_cases hpk : p = pk
      · subst hdk; subst hpk
        rw [usage_record_self]
        omega
      · subst hdk
        rw [usage_record_ne _ _ pk _ p (Or.inr hpk)]
    · rw [usage_record_ne _ _ pk d p (Or.inl hdk)]

/-- Usage counts outside the reserved key never decrease across a run. -/
theorem validate_rows_usage_mono (bad : List String) (fm : List (String × String))
    (mv : String → Option (Option Int)) :
    ∀ (rows : List Row) (db : DynamicDB) (out : List Row × DynamicDB),
      validate_rows bad fm mv rows db = .ok out →
      ∀ d p, d ≠ "_catchall_domains" → usage db d p ≤ usage out.2 d p := by
  intro rows
  induction rows with
  | nil =>
    intro db out h d p _
    simp only [validate_rows] at h
    cases h
    rfl
  | cons r rs ih =>
    intro db out h d p hd
    simp only [validate_rows] at h
    rcases hv : validate_one_lead r bad fm db mv with e | t <;> rw [hv] at h
    · simp at h
    · obtain ⟨r1, db1, calls1⟩ := t
      simp only at h
      rcases hrec : validate_rows bad fm mv rs db1 with e | out2 <;> rw [hrec] at h
      · simp at h
      · obtain ⟨rs2, dbF⟩ := out2
        simp only at h
        cases h
        exact le_trans
          (validate_one_lead_usage_mono r bad fm db mv (r1, db1, calls1) hv d p hd)
          (ih db1 (rs2, dbF) hrec d p hd)

/-- Claim C3: across a validation run, a usage count (an entry outside the
reserved `"_catchall_domains"` key) changes only by a single `+1` increment
for the exact pattern key and domain that produced the validated address,
and only when the verifier returned result code 1 (DefiniteValid) for that
address; in every other outcome all usage counts are unchanged, and usage
counts never decrease across the whole run. -/
theorem claim_C3_usage_counts :
    (∀ (row : Row) (bad : List String) (fm : List (String × String)) (db : DynamicDB)
        (mv : String → Option (Option Int)) (t : Row × DynamicDB × List String),
      validate_one_lead row bad fm db mv = .ok t →
        (∀ d p, d ≠ "_catchall_domains" → usage t.2.1 d p = usage db d p)
        ∨ ∃ dk pk f l,
            alGet? row "FIRST NAME" = some f
            ∧ alGet? row "LAST NAME" = some l
            ∧ t.2.1 = record_email_usage db dk pk
            ∧ usage t.2.1 dk pk = usage db dk pk + 1
            ∧ (∀ d p, d ≠ "_catchall_domains" → ¬(d = dk ∧ p = pk) →
                usage t.2.1 d p = usage db d p)
            ∧ alGet? t.1 "EMAIL STATUS" = some "Valid"
            ∧ alGet? t.1 "VALIDATED EMAIL"
                = some (apply_pattern pk (pyLower (pyStrip f)) (pyLower (pyStrip l))
                    ++ "@" ++ dk)
            ∧ mv (apply_pattern pk (pyLower (pyStrip f)) (pyLower (pyStrip l))
                    ++ "@" ++ dk) = some (some 1))
    ∧ (∀ (bad : List String) (fm : List (String × String))
        (mv : String → Option (Option Int)) (rows : List Row) (db : DynamicDB)
        (out : List Row × DynamicDB),
      validate_rows bad fm mv rows db = .ok out →
        ∀ d p, d ≠ "_catchall_domains" → usage db d p ≤ usage out.2 d p) := by
  constructor
  · intro row bad fm db mv t h
    obtain ⟨f, l, comp, hf, hl, _, ht⟩ := validate_one_lead_ok_resolve row bad fm db mv t h
    have hf' : alGet? row "FIRST NAME" = some f := by
      rw [← alGet?_initRow_of_ne row "FIRST NAME" (by decide) (by decide)]
      exact hf
    have hl' : alGet? row "LAST NAME" = some l := by
      rw [← alGet?_initRow_of_ne row "LAST NAME" (by decide) (by decide)]
      exact hl
    rw [ht]
    unfold resolve_lead
    by_cases hca : is_domain_catchall db
        (company_domain comp) = true
    · rw [if_pos hca]
      left
      intro d p _
      rfl
    · rw [if_neg hca]
      rcases try_patterns_cases (pyLower (pyStrip f)) (pyLower (pyStrip l))
          (company_domain comp) bad mv (initRow row) db
          (build_pattern_keys fm db (company_domain comp))
        with hdb | hdb | ⟨pk, hdb, hst, hve, hmv⟩
      · left
        intro d p _
        rw [hdb]
      · left
        intro d p hd
        rw [hdb, usage_mark db _ d p hd]
      · right
        refine ⟨_, pk, f, l, hf', hl', hdb, ?_, ?_, hst, hve, hmv⟩
        · rw [hdb, usage_record_self]
        · intro d p _ hne
          rw [hdb]
          by_cases hdk : d = company_domain comp
          · exact usage_record_ne db _ pk d p (Or.inr (fun hp => hne ⟨hdk, hp⟩))
          · exact usage_record_ne db _ pk d p (Or.inl hdk)
  · intro bad fm mv rows db out h d p hd
    exact validate_rows_usage_mono bad fm mv rows db out h d p hd

/-- Witness for claim C3: a concrete one-row run in which the provider
confirms the second candidate, so the `first.last` count of `acme.com`
rises from 0 to 1 and, in particular, does not decrease. -/
theorem claim_C3_witness :
    usage ([] : DynamicDB) "acme.com" "first.last"
      ≤ usage [("acme.com", [("first.last", JVal.num 1)])] "acme.com" "first.last" :=
  claim_C3_usage_counts.2 [] []
    (fun e => if e = "jane.doe@acme.com" then some (some 1) else some (some 0))
    [[("FIRST NAME", "Jane"), ("LAST NAME", "Doe"), ("COMPANY", "Acme")]] []
    ([[("FIRST NAME", "Jane"), ("LAST NAME", "Doe"), ("COMPANY", "Acme"),
       ("EMAIL STATUS", "Valid"), ("VALIDATED EMAIL", "jane.doe@acme.com")]],
     [("acme.com", [("first.last", JVal.num 1)])])
    (by rfl) "acme.com" "first.last" (by decide)

/-- Claim C2: when the lead's company domain is marked catch-all in the
dynamic DB at the start of validation, the validator issues zero
verification calls, leaves the DB untouched, labels the row `Catch-All`,
and synthesises the display address from the static hint, or from the
`first.last` fallback when no static hint exists. -/
theorem claim_C2_catchall_short_circuit (row : Row) (bad : List String)
    (fm : List (String × String)) (db : DynamicDB)
    (mv : String → Option (Option Int)) (f l comp : String)
    (h1 : alGet? row "FIRST NAME" = some f)
    (h2 : alGet? row "LAST NAME" = some l)
    (h3 : alGet? row "COMPANY" = some comp)
    (hca : is_domain_catchall db (company_domain comp) = true) :
    okCalls (validate_one_lead row bad fm db mv) = some []
    ∧ okDb (validate_one_lead row bad fm db mv) = some db
    ∧ (okRow (validate_one_lead row bad fm db mv)).bind
        (fun r => alGet? r "EMAIL STATUS") = some "Catch-All"
    ∧ (okRow (validate_one_lead row bad fm db mv)).bind
        (fun r => alGet? r "VALIDATED EMAIL")
        = some (if catchall_display_px fm (company_domain comp)
                    (pyLower (pyStrip f)) (pyLower (pyStrip l)) = "" then ""
                else catchall_display_px fm (company_domain comp)
                    (pyLower (pyStrip f)) (pyLower (pyStrip l))
                  ++ "@" ++ company_domain comp)
    ∧ ((alGet? fm (company_domain comp)).getD "" = "" →
        (okRow (validate_one_lead row bad fm db mv)).bind
          (fun r => alGet? r "VALIDATED EMAIL")
          = some (pyLower (pyStrip f) ++ "." ++ pyLower (pyStrip l)
                    ++ "@" ++ company_domain comp)) := by
  have hf : alGet? (initRow row) "FIRST NAME" = some f := by
    rw [alGet?_initRow_of_ne row _ (by decide) (by decide)]
    exact h1
  have hl : alGet? (initRow row) "LAST NAME" = some l := by
    rw [alGet?_initRow_of_ne row _ (by decide) (by decide)]
    exact h2
  have hc : alGet? (initRow row) "COMPANY" = some comp := by
    rw [alGet?_initRow_of_ne row _ (by decide) (by decide)]
    exact h3
  have hres : validate_one_lead row bad fm db mv
      = .ok (alSet (alSet (initRow row) "EMAIL STATUS" "Catch-All") "VALIDATED EMAIL"
               (if catchall_display_px fm (company_domain comp)
                    (pyLower (pyStrip f)) (pyLower (pyStrip l)) = "" then ""
                else catchall_display_px fm (company_domain comp)
                    (pyLower (pyStrip f)) (pyLower (pyStrip l))
                  ++ "@" ++ company_domain comp),
             db, []) := by
    simp only [validate_one_lead, hf, hl, hc, resolve_lead, hca, if_true]
  have hst : alGet? (alSet (alSet (initRow row) "EMAIL STATUS" "Catch-All")
      "VALIDATED EMAIL"
      (if catchall_display_px fm (company_domain comp)
          (pyLower (pyStrip f)) (pyLower (pyStrip l)) = "" then ""
       else catchall_display_px fm (company_domain comp)
          (pyLower (pyStrip f)) (pyLower (pyStrip l)) ++ "@" ++ company_domain comp))
      "EMAIL STATUS" = some "Catch-All" := by
    rw [alGet?_alSet_ne _ _ _ _ (by decide), alGet?_alSet_self]
  refine ⟨by rw [hres]; rfl, by rw [hres]; rfl, ?_, ?_, ?_⟩
  · rw [hres]
    simpa [okRow] using hst
  · rw [hres]
    simp only [okRow, Option.bind]
    rw [alGet?_alSet_self]
  · intro hfm
    rw [hres]
    simp only [okRow, Option.bind]
    rw [alGet?_alSet_self]
    have hpx : catchall_display_px fm (company_domain comp)
        (pyLower (pyStrip f)) (pyLower (pyStrip l))
        = pyLower (pyStrip f) ++ "." ++ pyLower (pyStrip l) := by
      unfold catchall_display_px
      rw [hfm, if_pos rfl]
    rw [hpx]
    have hne : ¬(pyLower (pyStrip f) ++ "." ++ pyLower (pyStrip l) = "") := by
      intro hcontra
      have hdata := congrArg String.data hcontra
      simp [String.data_append] at hdata
    rw [if_neg hne]

/-- Witness for claim C2: a concrete lead at a catch-all domain with no
static hint resolves instantly with no verification calls and address
`jane.doe@acme.com`. -/
theorem claim_C2_witness :
    okCalls (validate_one_lead [("FIRST NAME", "Jane"), ("LAST NAME", "Doe"),
        ("COMPANY", "Acme")] [] []
        [("_catchall_domains", [("acme.com", JVal.bool true)])] (fun _ => none))
      = some []
    ∧ okDb (validate_one_lead [("FIRST NAME", "Jane"), ("LAST NAME", "Doe"),
        ("COMPANY", "Acme")] [] []
        [("_catchall_domains", [("acme.com", JVal.bool true)])] (fun _ => none))
      = some [("_catchall_domains", [("acme.com", JVal.bool true)])]
    ∧ (okRow (validate_one_lead [("FIRST NAME", "Jane"), ("LAST NAME", "Doe"),
        ("COMPANY", "Acme")] [] []
        [("_catchall_domains", [("acme.com", JVal.bool true)])] (fun _ => none))).bind
        (fun r => alGet? r "EMAIL STATUS") = some "Catch-All"
    ∧ (okRow (validate_one_lead [("FIRST NAME", "Jane"), ("LAST NAME", "Doe"),
        ("COMPANY", "Acme")] [] []
        [("_catchall_domains", [("acme.com", JVal.bool true)])] (fun _ => none))).bind
        (fun r => alGet? r "VALIDATED EMAIL") = some "jane.doe@acme.com" := by
  have h := claim_C2_catchall_short_circuit
    [("FIRST NAME", "Jane"), ("LAST NAME", "Doe"), ("COMPANY", "Acme")] [] []
    [("_catchall_domains", [("acme.com", JVal.bool true)])] (fun _ => none)
    "Jane" "Doe" "Acme" (by decide) (by decide) (by decide) (by decide)
  refine ⟨h.1, h.2.1, h.2.2.1, ?_⟩
  have h5 := h.2.2.2.2 (by decide)
  simpa using h5

/-! ## Lemmas: the retry loop -/

theorem mv_attempts_all_fail (transport : Nat → Except Unit (Option Int)) :
    ∀ (r a : Nat), (∀ j, j < r → transport (a + j) = .error ()) →
      mv_attempts transport a r = none := by
  intro r
  induction r with
  | zero => intro a _; rfl
  | succ r ih =>
    intro a h
    have h0 : transport a = .error () := by simpa using h 0 (Nat.succ_pos r)
    simp only [mv_attempts, h0]
    refine ih (a + 1) (fun j hj => ?_)
    have hj1 : a + 1 + j = a + (j + 1) := by omega
    rw [hj1]
    exact h (j + 1) (by omega)

theorem mv_attempts_first_ok (transport : Nat → Except Unit (Option Int)) :
    ∀ (i a r : Nat) (resp : Option Int), i < r →
      (∀ j, j < i → transport (a + j) = .error ()) →
      transport (a + i) = .ok resp →
      mv_attempts transport a r = some resp := by
  intro i
  induction i with
  | zero =>
    intro a r resp hlt _ hok
    obtain ⟨r', rfl⟩ : ∃ r', r = r' + 1 := ⟨r - 1, by omega⟩
    have hok' : transport a = .ok resp := by simpa using hok
    simp [mv_attempts, hok']
  | succ i ih =>
    intro a r resp hlt hfail hok
    obtain ⟨r', rfl⟩ : ∃ r', r = r' + 1 := ⟨r - 1, by omega⟩
    have h0 : transport a = .error () := by simpa using hfail 0 (Nat.succ_pos i)
    simp only [mv_attempts, h0]
    refine ih (a + 1) r' resp (by omega) (fun j hj => ?_) ?_
    · have hj1 : a + 1 + j = a + (j + 1) := by omega
      rw [hj1]
      exact hfail (j + 1) (by omega)
    · have hi1 : a + 1 + i = a + (i + 1) := by omega
      rw [hi1]
      exact hok

/-- Claim C4: the verifier call retries within the fixed budget of 3
attempts, returning the first successful response and `none` (treated by the
caller as Indeterminate) once all attempts raised, never an exception; and
the caller maps provider code 1 to a Valid stop, code 2 to a Catch-All stop,
and any other outcome (including an exhausted retry budget) to moving on to
the next candidate. -/
theorem claim_C4_verifier_retry :
    (∀ transport : Nat → Except Unit (Option Int),
      (∀ i, i < 3 → transport i = .error ()) →
        verify_email_millionverifier transport 3 = none)
    ∧ (∀ (transport : Nat → Except Unit (Option Int)) (i : Nat) (resp : Option Int),
        i < 3 → (∀ j, j < i → transport j = .error ()) → transport i = .ok resp →
        verify_email_millionverifier transport 3 = some resp)
    ∧ (∀ (first last dk : String) (bad : List String)
        (mv : String → Option (Option Int)) (row : Row) (db : DynamicDB)
        (pk : String) (rest : List String),
        apply_pattern pk first last ≠ "" →
        (apply_pattern pk first last ++ "@" ++ dk) ∉ bad →
        (mv (apply_pattern pk first last ++ "@" ++ dk) = none →
          try_patterns first last dk bad mv row db (pk :: rest)
            = ((try_patterns first last dk bad mv row db rest).1,
               (try_patterns first last dk bad mv row db rest).2.1,
               (apply_pattern pk first last ++ "@" ++ dk)
                 :: (try_patterns first last dk bad mv row db rest).2.2))
        ∧ (mv (apply_pattern pk first last ++ "@" ++ dk) = some (some 1) →
          try_patterns first last dk bad mv row db (pk :: rest)
            = (alSet (alSet row "EMAIL STATUS" "Valid") "VALIDATED EMAIL"
                 (apply_pattern pk first last ++ "@" ++ dk),
               record_email_usage db dk pk,
               [apply_pattern pk first last ++ "@" ++ dk]))
        ∧ (mv (apply_pattern pk first last ++ "@" ++ dk) = some (some 2) →
          try_patterns first last dk bad mv row db (pk :: rest)
            = (alSet (alSet row "EMAIL STATUS" "Catch-All") "VALIDATED EMAIL"
                 (apply_pattern pk first last ++ "@" ++ dk),
               mark_domain_catchall db dk,
               [apply_pattern pk first last ++ "@" ++ dk]))
        ∧ (∀ code : Option Int,
            mv (apply_pattern pk first last ++ "@" ++ dk) = some code →
            code ≠ some 1 → code ≠ some 2 →
          try_patterns first last dk bad mv row db (pk :: rest)
            = ((try_patterns first last dk bad mv row db rest).1,
               (try_patterns first last dk bad mv row db rest).2.1,
               (apply_pattern pk first last ++ "@" ++ dk)
                 :: (try_patterns first last dk bad mv row db rest).2.2))) := by
  refine ⟨?_, ?_, ?_⟩
  · intro transport h
    exact mv_attempts_all_fail transport 3 0 (fun j hj => by simpa using h j hj)
  · intro transport i resp hlt hfail hok
    exact mv_attempts_first_ok transport i 0 3 resp hlt
      (fun j hj => by simpa using hfail j hj) (by simpa using hok)
  · intro first last dk bad mv row db pk rest hpx hbad
    refine ⟨?_, ?_, ?_, ?_⟩
    · intro hmv
      simp [try_patterns, hpx, hbad, hmv]
    · intro hmv
      simp [try_patterns, hpx, hbad, hmv]
    · intro hmv
      simp [try_patterns, hpx, hbad, hmv]
    · intro code hmv h1 h2
      simp [try_patterns, hpx, hbad, hmv, h1, h2]

/-- Witness for claim C4: with all three attempts failing the verifier
returns `none`; with the first two failing and the third succeeding it
returns that response; and a concrete Indeterminate candidate is skipped. -/
theorem claim_C4_witness :
    verify_email_millionverifier (fun _ => .error ()) 3 = none
    ∧ verify_email_millionverifier
        (fun i => if i = 2 then .ok (some 1) else .error ()) 3 = some (some 1)
    ∧ try_patterns "jane" "doe" "acme.com" [] (fun _ => some (some 0)) [] [] ["first"]
        = ((try_patterns "jane" "doe" "acme.com" [] (fun _ => some (some 0)) [] [] []).1,
           (try_patterns "jane" "doe" "acme.com" [] (fun _ => some (some 0)) [] [] []).2.1,
           "jane@acme.com"
             :: (try_patterns "jane" "doe" "acme.com" [] (fun _ => some (some 0)) [] [] []).2.2) := by
  refine ⟨?_, ?_, ?_⟩
  · exact claim_C4_verifier_retry.1 (fun _ => .error ()) (fun i _ => rfl)
  · exact claim_C4_verifier_retry.2.1
      (fun i => if i = 2 then .ok (some 1) else .error ()) 2 (some 1)
      (by omega)
      (fun j hj => by
        have hne : j ≠ 2 := by omega
        simp [hne])
      (by simp)
  · have h := (claim_C4_verifier_retry.2.2 "jane" "doe" "acme.com" []
      (fun _ => some (some 0)) [] [] "first" [] (by decide) (by decide)).2.2.2
      (some 0) rfl (by decide) (by decide)
    simpa using h

/-- Counterexample to claim C5: a concrete row with no `FIRST NAME` column
makes `validate_one_lead` raise a `KeyError` (modelled as `.error`) instead
of resolving the contact to `Invalid` with an empty address. -/
theorem claim_C5_counterexample :
    validate_one_lead [("LAST NAME", "Doe"), ("COMPANY", "Acme")] [] [] []
      (fun _ => none) = .error "KeyError: FIRST NAME" := by
  rfl

/-- Claim C5 as amended: a row missing a mandatory name field makes
validation fail with the corresponding key-lookup error before any
verification call is issued (the outcome does not depend on the verifier),
rather than resolving the contact to `Invalid`. -/
theorem claim_C5_missing_field (row : Row) (bad : List String)
    (fm : List (String × String)) (db : DynamicDB)
    (mv mv' : String → Option (Option Int))
    (h : alGet? row "FIRST NAME" = none ∨ alGet? row "LAST NAME" = none) :
    (validate_one_lead row bad fm db mv = .error "KeyError: FIRST NAME"
      ∨ validate_one_lead row bad fm db mv = .error "KeyError: LAST NAME")
    ∧ validate_one_lead row bad fm db mv = validate_one_lead row bad fm db mv' := by
  have hFN : alGet? (initRow row) "FIRST NAME" = alGet? row "FIRST NAME" :=
    alGet?_initRow_of_ne row _ (by decide) (by decide)
  have hLN : alGet? (initRow row) "LAST NAME" = alGet? row "LAST NAME" :=
    alGet?_initRow_of_ne row _ (by decide) (by decide)
  rcases hfo : alGet? row "FIRST NAME" with _ | f
  · have hf : alGet? (initRow row) "FIRST NAME" = none := by rw [hFN, hfo]
    constructor
    · left
      simp [validate_one_lead, hf]
    · simp [validate_one_lead, hf]
  · have hlo : alGet? row "LAST NAME" = none := by
      rcases h with h | h
      · rw [hfo] at h
        exact absurd h (by simp)
      · exact h
    have hf : alGet? (initRow row) "FIRST NAME" = some f := by rw [hFN, hfo]
    have hl : alGet? (initRow row) "LAST NAME" = none := by rw [hLN, hlo]
    constructor
    · right
      simp [validate_one_lead, hf, hl]
    · simp [validate_one_lead, hf, hl]

/-- Witness for the amended claim C5: a concrete row without `FIRST NAME`
errors out identically under two different verifiers. -/
theorem claim_C5_witness :
    (validate_one_lead [("LAST NAME", "Poe"), ("COMPANY", "Orbit")] [] [] []
        (fun _ => none) = .error "KeyError: FIRST NAME"
      ∨ validate_one_lead [("LAST NAME", "Poe"), ("COMPANY", "Orbit")] [] [] []
        (fun _ => none) = .error "KeyError: LAST NAME")
    ∧ validate_one_lead [("LAST NAME", "Poe"), ("COMPANY", "Orbit")] [] [] []
        (fun _ => none)
      = validate_one_lead [("LAST NAME", "Poe"), ("COMPANY", "Orbit")] [] [] []
        (fun _ => some (some 1)) :=
  claim_C5_missing_field [("LAST NAME", "Poe"), ("COMPANY", "Orbit")] [] [] []
    (fun _ => none) (fun _ => some (some 1)) (Or.inl (by decide))

/-- Counterexample to claim C6: the custom template `\x7bfoo\x7d` is
unknown/malformed, yet it renders to the non-empty string `\x7bfoo\x7d`
(the unrecognised placeholder is left verbatim), not to the empty string. -/
theorem claim_C6_counterexample :
    apply_pattern "customPattern:\x7bfoo\x7d" "jane" "doe" = "\x7bfoo\x7d"
    ∧ "\x7bfoo\x7d" ≠ ("" : String) := by
  constructor
  · rfl
  · decide

/-- Claim C6 as amended: rendering substitutes `\x7bfirst\x7d`,
`\x7blast\x7d` and `\x7bfirstInitial\x7d` into the fixed fallback templates;
a custom template substitutes only `\x7bfirst[0]\x7d`, `\x7bfirst_0\x7d`,
`\x7bfirst\x7d` and `\x7blast\x7d`, leaving any other text (such as the
`\x7bfirstInitial\x7d` placeholder) verbatim; a key that is neither a known
fallback nor a `customPattern:` key renders to the empty string, and the
caller skips an empty rendering without error. -/
theorem claim_C6_rendering :
    (∀ first last : String, (apply_pattern "first" first last).data = first.data)
    ∧ (∀ first last : String,
        (apply_pattern "first.last" first last).data
          = first.data ++ '.' :: last.data)
    ∧ (∀ first last : String,
        (apply_pattern "first_\x7blast\x7d" first last).data
          = first.data ++ '_' :: last.data)
    ∧ (∀ first last : String,
        (apply_pattern "firstInitial.last" first last).data
          = first.data.take 1 ++ '.' :: last.data)
    ∧ (∀ first last : String,
        (apply_pattern "customPattern:\x7bfirstInitial\x7d.\x7blast\x7d" first last).data
          = ("\x7bfirstInitial\x7d." ++ last).data)
    ∧ (∀ pk first last : String, alGet? FALLBACK_PATTERNS pk = none →
        pyStartsWith pk "customPattern:" = false → apply_pattern pk first last = "")
    ∧ (∀ (first last dk : String) (bad : List String)
        (mv : String → Option (Option Int)) (row : Row) (db : DynamicDB)
        (pk : String) (rest : List String), apply_pattern pk first last = "" →
        try_patterns first last dk bad mv row db (pk :: rest)
          = try_patterns first last dk bad mv row db rest) := by
  refine ⟨?_, ?_, ?_, ?_, ?_, ?_, ?_⟩
  · intro f l
    have h1 : (apply_pattern "first" f l).data = f.data ++ [] := rfl
    rw [h1]
    simp
  · intro f l
    have h1 : (apply_pattern "first.last" f l).data
        = f.data ++ '.' :: (l.data ++ []) := rfl
    rw [h1]
    simp
  · intro f l
    have h1 : (apply_pattern "first_\x7blast\x7d" f l).data
        = f.data ++ '_' :: (l.data ++ []) := rfl
    rw [h1]
    simp
  · intro f l
    have h1 : (apply_pattern "firstInitial.last" f l).data
        = f.data.take 1 ++ '.' :: (l.data ++ []) := rfl
    rw [h1]
    simp
  · intro f l
    have h1 : (apply_pattern "customPattern:\x7bfirstInitial\x7d.\x7blast\x7d" f l).data
        = "\x7bfirstInitial\x7d.".data ++ (l.data ++ []) := rfl
    rw [h1]
    simp [String.data_append]
  · intro pk f l h1 h2
    simp [apply_pattern, h1, h2]
  · intro f l dk bad mv row db pk rest hpx
    simp [try_patterns, hpx]

/-- Witness for the amended claim C6: the unknown key `bogus` renders empty
and is skipped by the candidate loop without error. -/
theorem claim_C6_witness :
    apply_pattern "bogus" "jane" "doe" = ""
    ∧ try_patterns "jane" "doe" "acme.com" [] (fun _ => none) [] [] ["bogus"]
        = try_patterns "jane" "doe" "acme.com" [] (fun _ => none) [] [] [] := by
  have h6 := claim_C6_rendering.2.2.2.2.2.1 "bogus" "jane" "doe" (by decide) (by decide)
  exact ⟨h6, claim_C6_rendering.2.2.2.2.2.2 "jane" "doe" "acme.com" []
    (fun _ => none) [] [] "bogus" [] h6⟩

/-- Claim C7: for the contact Jane Doe at Acme with no static hint, an empty
store and no bad emails, a provider that answers Indeterminate (code 0) for
the first candidate `jane@acme.com` and DefiniteValid (code 1) for
`jane.doe@acme.com` yields status Valid with that address, the search stops
there (exactly those two verification calls are made), and the store records
`acme.com -> first.last -> 1`. -/
theorem claim_C7_scenario :
    validate_one_lead [("FIRST NAME", "Jane"), ("LAST NAME", "Doe"), ("COMPANY", "Acme")]
      [] [] [] (fun e => if e = "jane.doe@acme.com" then some (some 1) else some (some 0))
      = .ok ([("FIRST NAME", "Jane"), ("LAST NAME", "Doe"), ("COMPANY", "Acme"),
              ("EMAIL STATUS", "Valid"), ("VALIDATED EMAIL", "jane.doe@acme.com")],
             [("acme.com", [("first.last", JVal.num 1)])],
             ["jane@acme.com", "jane.doe@acme.com"])
    ∧ usage [("acme.com", [("first.last", JVal.num 1)])] "acme.com" "first.last" = 1 := by
  constructor
  · rfl
  · decide

/-! ## Lemmas: persistence round trip -/

theorem decodeJVal_encodeJVal (v : JVal) : decodeJVal (encodeJVal v) = some v := by
  cases v <;> rfl

theorem decodePatternMap_encodePatternMap (m : List (String × JVal)) :
    decodePatternMap (encodePatternMap m) = some m := by
  induction m with
  | nil => rfl
  | cons kv rest ih =>
    obtain ⟨k, v⟩ := kv
    simp [encodePatternMap, decodePatternMap, decodeJVal_encodeJVal, ih]

theorem decodeDomains_encodeDomains (db : DynamicDB) :
    decodeDomains (encodeDomains db) = some db := by
  induction db with
  | nil => rfl
  | cons dm rest ih =>
    obtain ⟨d, m⟩ := dm
    simp [encodeDomains, decodeDomains, decodePatternMap_encodePatternMap, ih]

/-- Claim C9: persisting the dynamic DB and reloading the persisted form
reproduces the identical mapping (usage counts and catch-all flags). -/
theorem claim_C9_roundtrip (db : DynamicDB) :
    load_dynamic_db (some (save_dynamic_db db)) = db := by
  simp [load_dynamic_db, save_dynamic_db, decodeDomains_encodeDomains]

/-- Claim C10: the learned-pattern list for a domain never contains a key
beginning with an underscore, so reserved bookkeeping entries stored among
the usage counts are never emitted as candidate patterns. -/
theorem claim_C10_no_underscore (db : DynamicDB) (domain p : String)
    (h : p ∈ sorted_patterns_by_usage db domain) :
    pyStartsWith p "_" = false := by
  unfold sorted_patterns_by_usage at h
  rcases hdb : alGet? db domain with _ | m <;> rw [hdb] at h
  · simp at h
  · simp only [List.mem_filter, Bool.not_eq_eq_eq_not, Bool.not_true] at h
    exact h.2

/-- Witness for claim C10: in a store whose `x.com` map also contains the
reserved bookkeeping entry with the highest count, the emitted pattern list
contains `first` and never an underscore-prefixed key. -/
theorem claim_C10_witness :
    ("first" ∈ sorted_patterns_by_usage
        [("x.com", [("_catchall_domains", JVal.num 3), ("first", JVal.num 1)])] "x.com")
    ∧ pyStartsWith "first" "_" = false :=
  ⟨by decide,
   claim_C10_no_underscore
     [("x.com", [("_catchall_domains", JVal.num 3), ("first", JVal.num 1)])]
     "x.com" "first" (by decide)⟩

/-! ## Lemmas: deduplication -/

theorem strMk_data (s : String) : (⟨s.data⟩ : String) = s := rfl

theorem mem_dedupKeepFirst (y : String) : ∀ l : List String,
    y ∈ dedupKeepFirst l → y ∈ l := by
  intro l
  induction l using dedupKeepFirst.induct with
  | case1 => simp [dedupKeepFirst]
  | case2 x xs ih =>
    intro hy
    rw [dedupKeepFirst] at hy
    rcases List.mem_cons.mp hy with rfl | hy
    · exact List.mem_cons_self _ _
    · exact List.mem_cons_of_mem _ (List.mem_of_mem_filter (ih hy))

theorem nodup_dedupKeepFirst : ∀ l : List String, (dedupKeepFirst l).Nodup := by
  intro l
  induction l using dedupKeepFirst.induct with
  | case1 => simp [dedupKeepFirst]
  | case2 x xs ih =>
    rw [dedupKeepFirst]
    refine List.nodup_cons.mpr ⟨?_, ih⟩
    intro hx
    have := List.mem_filter.mp (mem_dedupKeepFirst x _ hx)
    simp at this

theorem dKF_cons (x : String) (xs : List String) :
    dedupKeepFirst (x :: xs)
      = x :: dedupKeepFirst (xs.filter (fun y => !(y == x))) := by
  simp [dedupKeepFirst]

theorem dedup_go_eq_filter : ∀ (l seen : List String),
    dedup_go seen l = dedupKeepFirst (l.filter (fun y => decide (y ∉ seen))) := by
  intro l
  induction l with
  | nil => intro seen; simp [dedup_go, dedupKeepFirst]
  | cons pk rest ih =>
    intro seen
    by_cases hmem : pk ∈ seen
    · have hdec : (decide (pk ∉ seen)) = false := by simp [hmem]
      rw [dedup_go, if_pos hmem, List.filter_cons, hdec]
      simp only [Bool.false_eq_true, if_false]
      exact ih seen
    · have hdec : (decide (pk ∉ seen)) = true := by simp [hmem]
      rw [dedup_go, if_neg hmem, List.filter_cons, hdec, if_pos rfl, dKF_cons,
        ih (pk :: seen), List.filter_filter]
      congr 2
      refine List.filter_congr (fun y _ => ?_)
      by_cases hy : y = pk <;> by_cases hy2 : y ∈ seen <;>
        simp [hy, hy2, List.mem_cons]

theorem foldl_append_if : ∀ (fbs : List String), fbs.Nodup →
    ∀ acc : List String,
      fbs.foldl (fun a fb => if fb ∈ a then a else a ++ [fb]) acc
        = acc ++ fbs.filter (fun fb => decide (fb ∉ acc)) := by
  intro fbs
  induction fbs with
  | nil => intro _ acc; simp
  | cons fb fbs ih =>
    intro hnd acc
    rcases List.nodup_cons.mp hnd with ⟨hfb, hnd'⟩
    rw [List.foldl_cons, List.filter_cons]
    by_cases hmem : fb ∈ acc
    · have hdec : (decide (fb ∉ acc)) = false := by simp [hmem]
      rw [hdec, if_pos hmem]
      simp only [Bool.false_eq_true, if_false]
      exact ih hnd' acc
    · have hdec : (decide (fb ∉ acc)) = true := by simp [hmem]
      rw [hdec, if_neg hmem, if_pos rfl, ih hnd' (acc ++ [fb])]
      have hfilter : fbs.filter (fun x => decide (x ∉ acc ++ [fb]))
          = fbs.filter (fun x => decide (x ∉ acc)) := by
        refine List.filter_congr (fun y hy => ?_)
        have hyne : y ≠ fb := fun hcontra => hfb (hcontra ▸ hy)
        simp [List.mem_append, hyne]
      rw [hfilter]
      simp

theorem dKF_append_filter : ∀ (n : Nat) (xs ys : List String), xs.length ≤ n →
    dedupKeepFirst (xs ++ ys.filter (fun y => decide (y ∉ xs)))
      = dedupKeepFirst (xs ++ ys) := by
  intro n
  induction n with
  | zero =>
    intro xs ys hlen
    rcases xs with _ | ⟨x, xs'⟩
    · simp
    · simp at hlen
  | succ n ih =>
    intro xs ys hlen
    rcases xs with _ | ⟨x, xs'⟩
    · simp
    · rw [List.cons_append, List.cons_append, dKF_cons, dKF_cons,
        List.filter_append, List.filter_append, List.filter_filter]
      congr 1
      have h1 : ys.filter (fun a => (!(a == x)) && decide (a ∉ x :: xs'))
          = (ys.filter (fun y => !(y == x))).filter
              (fun y => decide (y ∉ xs'.filter (fun z => !(z == x)))) := by
        rw [List.filter_filter]
        refine List.filter_congr (fun y _ => ?_)
        by_cases hy : y = x
        · simp [hy]
        · by_cases hy2 : y ∈ xs' <;> simp [hy, hy2, List.mem_cons, List.mem_filter]
      rw [h1]
      have hlen' : (xs'.filter (fun z => !(z == x))).length ≤ n :=
        le_trans (List.length_filter_le _ _) (by simpa using hlen)
      exact ih (xs'.filter (fun z => !(z == x))) (ys.filter (fun y => !(y == x))) hlen'

/-! ## Lemmas: the stable descending sort -/

theorem mem_insertDesc (key : String → Nat) (x z : String) : ∀ l : List String,
    z ∈ insertDesc key x l ↔ z = x ∨ z ∈ l := by
  intro l
  induction l with
  | nil => simp [insertDesc]
  | cons y ys ih =>
    by_cases h : key y ≤ key x
    · simp [insertDesc, h, List.mem_cons]
    · simp only [insertDesc, h, if_false, List.mem_cons, ih]
      tauto

theorem pairwise_insertDesc (key : String → Nat) (x : String) : ∀ l : List String,
    l.Pairwise (fun p q => key q ≤ key p) →
    (insertDesc key x l).Pairwise (fun p q => key q ≤ key p) := by
  intro l
  induction l with
  | nil => simp [insertDesc]
  | cons y ys ih =>
    intro h
    rcases List.pairwise_cons.mp h with ⟨hy, hys⟩
    by_cases hk : key y ≤ key x
    · rw [insertDesc, if_pos hk]
      refine List.pairwise_cons.mpr ⟨?_, h⟩
      intro z hz
      rcases List.mem_cons.mp hz with rfl | hz
      · exact hk
      · exact le_trans (hy z hz) hk
    · rw [insertDesc, if_neg hk]
      refine List.pairwise_cons.mpr ⟨?_, ih hys⟩
      intro z hz
      rcases (mem_insertDesc key x z ys).mp hz with rfl | hz
      · omega
      · exact hy z hz

theorem pairwise_isortDesc (key : String → Nat) : ∀ l : List String,
    (isortDesc key l).Pairwise (fun p q => key q ≤ key p) := by
  intro l
  induction l with
  | nil => simp [isortDesc]
  | cons x xs ih => exact pairwise_insertDesc key x (isortDesc key xs) ih

theorem filter_insertDesc (key : String → Nat) (P : String → Bool) (n : Nat)
    (hP : ∀ p, P p = true → key p = n) (x : String) : ∀ l : List String,
    (insertDesc key x l).filter P
      = if P x then x :: l.filter P else l.filter P := by
  intro l
  induction l with
  | nil => simp [insertDesc, List.filter_cons]
  | cons y ys ih =>
    by_cases hk : key y ≤ key x
    · rw [insertDesc, if_pos hk, List.filter_cons]
    · rw [insertDesc, if_neg hk, List.filter_cons, ih, List.filter_cons]
      by_cases hPy : P y = true
      · have hyn : key y = n := hP y hPy
        have hPx : P x = false := by
          rcases hx : P x with _ | _
          · rfl
          · exact absurd (le_of_eq (hyn.trans (hP x hx).symm)) hk
        simp [hPy, hPx]
      · simp only [Bool.not_eq_true] at hPy
        simp [hPy]

theorem filter_isortDesc (key : String → Nat) (P : String → Bool) (n : Nat)
    (hP : ∀ p, P p = true → key p = n) : ∀ l : List String,
    (isortDesc key l).filter P = l.filter P := by
  intro l
  induction l with
  | nil => rfl
  | cons x xs ih =>
    rw [isortDesc, filter_insertDesc key P n hP x (isortDesc key xs), ih,
      List.filter_cons]

/-! ## Lemmas: splitting the static hint -/

theorem splitOnCharGo_ne_nil (sep : Char) : ∀ (l acc : List Char),
    splitOnCharGo sep acc l ≠ [] := by
  intro l
  induction l with
  | nil => intro acc; simp [splitOnCharGo]
  | cons c cs ih =>
    intro acc
    by_cases hc : (c == sep) = true
    · simp [splitOnCharGo, hc]
    · simp only [Bool.not_eq_true] at hc
      simp [splitOnCharGo, hc]
      exact ih (c :: acc)

theorem splitOnCharGo_no_sep (sep : Char) : ∀ (l acc r : List Char), sep ∉ l →
    splitOnCharGo sep acc (l ++ sep :: r)
      = (acc.reverse ++ l) :: splitOnCharGo sep [] r := by
  intro l
  induction l with
  | nil =>
    intro acc r _
    simp [splitOnCharGo]
  | cons c cs ih =>
    intro acc r hmem
    have hcne : c ≠ sep := fun hc => hmem (hc ▸ List.mem_cons_self c cs)
    have hc : (c == sep) = false := by simpa using hcne
    rw [List.cons_append, splitOnCharGo, hc]
    simp only [Bool.false_eq_true, if_false]
    rw [ih (c :: acc) r (fun hx => hmem (List.mem_cons_of_mem c hx))]
    simp

/-- Claim C1: the candidate pattern-key sequence is duplicate-free and equals
the first-occurrence-wins deduplication of: the static hint's key (when
present and parseable), then the domain's recorded patterns sorted by usage
descending with ties kept in insertion order, then the fixed fallback keys
in their canonical order; and a parseable static hint translates to the
fallback key when its local part is textually identical to a fallback
template, else to a `customPattern:` key. -/
theorem claim_C1_candidate_sequence
    (fm : List (String × String)) (db : DynamicDB) (dk : String) :
    (build_pattern_keys fm db dk).Nodup
    ∧ build_pattern_keys fm db dk
        = dedupKeepFirst (static_hint_key fm dk
            ++ sorted_patterns_by_usage db dk ++ fallback_order)
    ∧ (∀ m, alGet? db dk = some m →
        (sorted_patterns_by_usage db dk).Pairwise
          (fun p q => usageKey m q ≤ usageKey m p)
        ∧ ∀ n : Nat,
            (sorted_patterns_by_usage db dk).filter (fun p => usageKey m p == n)
              = (m.map Prod.fst).filter
                  (fun p => (!(pyStartsWith p "_")) && (usageKey m p == n)))
    ∧ (∀ localPart rest : String, '@' ∉ localPart.data →
        (∃ kv ∈ FALLBACK_PATTERNS, kv.2 = localPart
            ∧ parse_static_pattern (localPart ++ "@" ++ rest) = some kv.1)
        ∨ ((∀ kv ∈ FALLBACK_PATTERNS, kv.2 ≠ localPart)
            ∧ parse_static_pattern (localPart ++ "@" ++ rest)
                = some ("customPattern:" ++ localPart))) := by
  have hfilter_nil : ∀ L : List String,
      L.filter (fun y => decide (y ∉ ([] : List String))) = L := by
    intro L
    simp
  have hmain : build_pattern_keys fm db dk
      = dedupKeepFirst (static_hint_key fm dk
          ++ sorted_patterns_by_usage db dk ++ fallback_order) := by
    simp only [build_pattern_keys]
    rw [foldl_append_if fallback_order (by decide)
        (static_hint_key fm dk ++ sorted_patterns_by_usage db dk),
      dedup_go_eq_filter, hfilter_nil,
      dKF_append_filter
        (static_hint_key fm dk ++ sorted_patterns_by_usage db dk).length
        (static_hint_key fm dk ++ sorted_patterns_by_usage db dk)
        fallback_order (le_refl _)]
  refine ⟨by rw [hmain]; exact nodup_dedupKeepFirst _, hmain, ?_, ?_⟩
  · intro m hm
    have hsp : sorted_patterns_by_usage db dk
        = (isortDesc (usageKey m) (m.map Prod.fst)).filter
            (fun p => !(pyStartsWith p "_")) := by
      simp [sorted_patterns_by_usage, hm]
    constructor
    · rw [hsp]
      exact List.Pairwise.sublist (List.filter_sublist _)
        (pairwise_isortDesc (usageKey m) (m.map Prod.fst))
    · intro n
      rw [hsp, List.filter_filter,
        filter_isortDesc (usageKey m)
          (fun a => (usageKey m a == n) && !(pyStartsWith a "_")) n
          (fun p hp => by
            rw [Bool.and_eq_true] at hp
            exact eq_of_beq hp.1)]
      exact List.filter_congr (fun y _ => Bool.and_comm _ _)
  · intro localPart rest hmem
    have hAt : ("@" : String).data = ['@'] := rfl
    have hdata : (localPart ++ "@" ++ rest).data
        = localPart.data ++ '@' :: rest.data := by
      simp [String.data_append, hAt]
    have hkey : parse_static_pattern (localPart ++ "@" ++ rest)
        = (match FALLBACK_PATTERNS.find? (fun kv => kv.2 == localPart) with
           | some kv => some kv.1
           | none => some ("customPattern:" ++ localPart)) := by
      unfold parse_static_pattern
      rw [hdata, splitOnCharGo_no_sep '@' localPart.data [] rest.data hmem]
      rcases hsp2 : splitOnCharGo '@' [] rest.data with _ | ⟨p1, ps⟩
      · exact absurd hsp2 (splitOnCharGo_ne_nil '@' rest.data [])
      · simp [strMk_data]
    rcases hfind : FALLBACK_PATTERNS.find? (fun kv => kv.2 == localPart) with _ | kv
    · right
      constructor
      · intro kv' hkv' heq
        have hnone := List.find?_eq_none.mp hfind kv' hkv'
        simp [heq] at hnone
      · rw [hkey, hfind]
    · left
      refine ⟨kv, List.mem_of_find?_eq_some hfind, ?_, by rw [hkey, hfind]⟩
      have hpred := List.find?_some hfind
      simpa using hpred

/-- Witness for claim C1: the hint local part `info` matches no fallback
template, so it translates to a `customPattern:` key. -/
theorem claim_C1_witness :
    (∃ kv ∈ FALLBACK_PATTERNS, kv.2 = "info"
        ∧ parse_static_pattern ("info" ++ "@" ++ "x.com") = some kv.1)
    ∨ ((∀ kv ∈ FALLBACK_PATTERNS, kv.2 ≠ "info")
        ∧ parse_static_pattern ("info" ++ "@" ++ "x.com")
            = some ("customPattern:" ++ "info")) :=
  (claim_C1_candidate_sequence [] [] "x.com").2.2.2 "info" "x.com" (by decide)

/-! ## Lemmas: lexicographic string comparison -/

theorem charListLt_asymm : ∀ (a b : List Char), charListLt a b = true →
    charListLt b a = false := by
  intro a
  induction a with
  | nil =>
    intro b hab
    rcases b with _ | ⟨y, ys⟩
    · simp [charListLt] at hab
    · rfl
  | cons x xs ih =>
    intro b hab
    rcases b with _ | ⟨y, ys⟩
    · simp [charListLt] at hab
    · rw [charListLt] at hab ⊢
      rcases lt_trichotomy x y with hxy | hxy | hxy
      · rw [if_neg (lt_asymm hxy), if_pos hxy]
      · subst hxy
        rw [if_neg (lt_irrefl x), if_neg (lt_irrefl x)] at hab ⊢
        exact ih ys hab
      · rw [if_neg (lt_asymm hxy), if_pos hxy] at hab
        simp at hab

theorem charListLt_trans : ∀ (a b c : List Char), charListLt a b = true →
    charListLt b c = true → charListLt a c = true := by
  intro a
  induction a with
  | nil =>
    intro b c hab hbc
    rcases b with _ | ⟨y, ys⟩
    · simp [charListLt] at hab
    · rcases c with _ | ⟨z, zs⟩
      · simp [charListLt] at hbc
      · simp [charListLt]
  | cons x xs ih =>
    intro b c hab hbc
    rcases b with _ | ⟨y, ys⟩
    · simp [charListLt] at hab
    · rcases c with _ | ⟨z, zs⟩
      · simp [charListLt] at hbc
      · rw [charListLt] at hab hbc ⊢
        rcases lt_trichotomy x y with hxy | hxy | hxy
        · rcases lt_trichotomy y z with hyz | hyz | hyz
          · rw [if_pos (lt_trans hxy hyz)]
          · subst hyz
            rw [if_pos hxy]
          · rw [if_neg (lt_asymm hyz), if_pos hyz] at hbc
            simp at hbc
        · subst hxy
          rw [if_neg (lt_irrefl x), if_neg (lt_irrefl x)] at hab
          rcases lt_trichotomy x z with hxz | hxz | hxz
          · rw [if_pos hxz]
          · subst hxz
            rw [if_neg (lt_irrefl x), if_neg (lt_irrefl x)] at hbc ⊢
            exact ih ys zs hab hbc
          · rw [if_neg (lt_asymm hxz), if_pos hxz] at hbc
            simp at hbc
        · rw [if_neg (lt_asymm hxy), if_pos hxy] at hab
          simp at hab

theorem charListLt_trichotomy : ∀ (a b : List Char),
    charListLt a b = true ∨ charListLt b a = true ∨ a = b := by
  intro a
  induction a with
  | nil =>
    intro b
    rcases b with _ | ⟨y, ys⟩
    · right; right; rfl
    · left; rfl
  | cons x xs ih =>
    intro b
    rcases b with _ | ⟨y, ys⟩
    · right; left; rfl
    · rcases lt_trichotomy x y with hxy | hxy | hxy
      · left
        rw [charListLt, if_pos hxy]
      · subst hxy
        rcases ih ys with h | h | h
        · left
          rw [charListLt, if_neg (lt_irrefl x), if_neg (lt_irrefl x)]
          exact h
        · right; left
          rw [charListLt, if_neg (lt_irrefl x), if_neg (lt_irrefl x)]
          exact h
        · right; right
          rw [h]
      · right; left
        rw [charListLt, if_pos hxy]

theorem strLeB_total (a b : String) : strLeB a b = true ∨ strLeB b a = true := by
  unfold strLeB
  rcases h : charListLt b.data a.data with _ | _
  · left; rfl
  · right
    rw [charListLt_asymm b.data a.data h]
    rfl

theorem strLeB_trans (a b c : String) (hab : strLeB a b = true)
    (hbc : strLeB b c = true) : strLeB a c = true := by
  unfold strLeB at hab hbc ⊢
  rcases hca : charListLt c.data a.data with _ | _
  · rfl
  · exfalso
    rcases hba : charListLt b.data a.data with _ | _
    · rcases hcb : charListLt c.data b.data with _ | _
      · rcases charListLt_trichotomy c.data b.data with h | h | h
        · rw [h] at hcb
          exact absurd hcb (by simp)
        · have := charListLt_trans b.data c.data a.data h hca
          rw [this] at hba
          exact absurd hba (by simp)
        · rw [h] at hca
          rw [hca] at hba
          exact Bool.noConfusion hba
      · rw [hcb] at hbc
        simp at hbc
    · rw [hba] at hab
      simp at hab

/-! ## Lemmas: the company sort -/

theorem mem_insertAsc (x z : Row) : ∀ l : List Row,
    z ∈ insertAsc x l ↔ z = x ∨ z ∈ l := by
  intro l
  induction l with
  | nil => simp [insertAsc]
  | cons y ys ih =>
    by_cases h : strLeB (companyOf x) (companyOf y) = true
    · simp [insertAsc, h, List.mem_cons]
    · rw [insertAsc, if_neg h]
      simp only [List.mem_cons, ih]
      tauto

theorem perm_insertAsc (x : Row) : ∀ l : List Row,
    (insertAsc x l).Perm (x :: l) := by
  intro l
  induction l with
  | nil => exact List.Perm.refl _
  | cons y ys ih =>
    by_cases h : strLeB (companyOf x) (companyOf y) = true
    · rw [insertAsc, if_pos h]
    · rw [insertAsc, if_neg h]
      exact (List.Perm.cons y ih).trans (List.Perm.swap x y ys)

theorem perm_isortRowsByCompany : ∀ l : List Row,
    (isortRowsByCompany l).Perm l := by
  intro l
  induction l with
  | nil => exact List.Perm.refl _
  | cons x xs ih =>
    rw [isortRowsByCompany]
    exact (perm_insertAsc x (isortRowsByCompany xs)).trans (List.Perm.cons x ih)

theorem pairwise_insertAsc (x : Row) : ∀ l : List Row,
    l.Pairwise (fun a b => strLeB (companyOf a) (companyOf b) = true) →
    (insertAsc x l).Pairwise (fun a b => strLeB (companyOf a) (companyOf b) = true) := by
  intro l
  induction l with
  | nil => simp [insertAsc]
  | cons y ys ih =>
    intro h
    rcases List.pairwise_cons.mp h with ⟨hy, hys⟩
    by_cases hk : strLeB (companyOf x) (companyOf y) = true
    · rw [insertAsc, if_pos hk]
      refine List.pairwise_cons.mpr ⟨?_, h⟩
      intro z hz
      rcases List.mem_cons.mp hz with rfl | hz
      · exact hk
      · exact strLeB_trans _ _ _ hk (hy z hz)
    · rw [insertAsc, if_neg hk]
      refine List.pairwise_cons.mpr ⟨?_, ih hys⟩
      intro z hz
      rcases (mem_insertAsc x z ys).mp hz with rfl | hz
      · rcases strLeB_total (companyOf z) (companyOf y) with h' | h'
        · exact absurd h' hk
        · exact h'
      · exact hy z hz

theorem pairwise_isortRowsByCompany : ∀ l : List Row,
    (isortRowsByCompany l).Pairwise
      (fun a b => strLeB (companyOf a) (companyOf b) = true) := by
  intro l
  induction l with
  | nil => simp [isortRowsByCompany]
  | cons x xs ih => exact pairwise_insertAsc x (isortRowsByCompany xs) ih

/-! ## Lemmas: the engine only writes its own columns -/

theorem filter_alSet_false {P : String × String → Bool} (k v : String)
    (hP : ∀ w, P (k, w) = false) : ∀ r : Row,
    List.filter P (alSet r k v) = List.filter P r := by
  intro r
  induction r with
  | nil => simp [alSet, List.filter_cons, hP v]
  | cons kv1 rest ih =>
    obtain ⟨k1, w1⟩ := kv1
    by_cases hk : k1 = k
    · subst hk
      rw [alSet, if_pos rfl, List.filter_cons, List.filter_cons, hP v, hP w1]
      simp
    · rw [alSet, if_neg hk, List.filter_cons, List.filter_cons, ih]

theorem strip_alSet_status (r : Row) (v : String) :
    stripAnnotations (alSet r "EMAIL STATUS" v) = stripAnnotations r :=
  filter_alSet_false "EMAIL STATUS" v (fun _ => rfl) r

theorem strip_alSet_email (r : Row) (v : String) :
    stripAnnotations (alSet r "VALIDATED EMAIL" v) = stripAnnotations r :=
  filter_alSet_false "VALIDATED EMAIL" v (fun _ => rfl) r

theorem strip_initRow (r : Row) : stripAnnotations (initRow r) = stripAnnotations r := by
  rw [initRow, strip_alSet_email, strip_alSet_status]

theorem strip_rowDrop_email (r : Row) :
    stripAnnotations (rowDrop r "EMAIL") = stripAnnotations r := by
  unfold stripAnnotations rowDrop
  rw [List.filter_filter]
  refine List.filter_congr (fun kv _ => ?_)
  obtain ⟨k, w⟩ := kv
  by_cases hk : k = "EMAIL" <;> simp [hk]

theorem strip_try_patterns (first last dk : String) (bad : List String)
    (mv : String → Option (Option Int)) : ∀ (keys : List String) (row : Row)
    (db : DynamicDB),
    stripAnnotations (try_patterns first last dk bad mv row db keys).1
      = stripAnnotations row := by
  intro keys
  induction keys with
  | nil => intro row db; rfl
  | cons pk rest ih =>
    intro row db
    by_cases hpx : apply_pattern pk first last = ""
    · rw [show try_patterns first last dk bad mv row db (pk :: rest)
          = try_patterns first last dk bad mv row db rest by
            simp [try_patterns, hpx]]
      exact ih row db
    · by_cases hbad : (apply_pattern pk first last ++ "@" ++ dk) ∈ bad
      · rw [show try_patterns first last dk bad mv row db (pk :: rest)
            = try_patterns first last dk bad mv row db rest by
              simp [try_patterns, hpx, hbad]]
        exact ih row db
      · rcases hmv : mv (apply_pattern pk first last ++ "@" ++ dk) with _ | code
        · rw [show (try_patterns first last dk bad mv row db (pk :: rest)).1
              = (try_patterns first last dk bad mv row db rest).1 by
                simp [try_patterns, hpx, hbad, hmv]]
          exact ih row db
        · by_cases h1 : code = some 1
          · subst h1
            rw [show (try_patterns first last dk bad mv row db (pk :: rest)).1
                = alSet (alSet row "EMAIL STATUS" "Valid") "VALIDATED EMAIL"
                    (apply_pattern pk first last ++ "@" ++ dk) by
                  simp [try_patterns, hpx, hbad, hmv]]
            rw [strip_alSet_email, strip_alSet_status]
          · by_cases h2 : code = some 2
            · subst h2
              rw [show (try_patterns first last dk bad mv row db (pk :: rest)).1
                  = alSet (alSet row "EMAIL STATUS" "Catch-All") "VALIDATED EMAIL"
                      (apply_pattern pk first last ++ "@" ++ dk) by
                    simp [try_patterns, hpx, hbad, hmv, h1]]
              rw [strip_alSet_email, strip_alSet_status]
            · rw [show (try_patterns first last dk bad mv row db (pk :: rest)).1
                  = (try_patterns first last dk bad mv row db rest).1 by
                    simp [try_patterns, hpx, hbad, hmv, h1, h2]]
              exact ih row db

theorem validate_one_lead_strip (row : Row) (bad : List String)
    (fm : List (String × String)) (db : DynamicDB)
    (mv : String → Option (Option Int)) (t : Row × DynamicDB × List String)
    (h : validate_one_lead row bad fm db mv = .ok t) :
    stripAnnotations t.1 = stripAnnotations row := by
  obtain ⟨f, l, comp, _, _, _, ht⟩ := validate_one_lead_ok_resolve row bad fm db mv t h
  rw [ht]
  unfold resolve_lead
  by_cases hca : is_domain_catchall db (company_domain comp) = true
  · rw [if_pos hca]
    simp only
    rw [strip_alSet_email, strip_alSet_status, strip_initRow]
  · rw [if_neg hca]
    rw [strip_try_patterns, strip_initRow]

theorem validate_rows_strip (bad : List String) (fm : List (String × String))
    (mv : String → Option (Option Int)) :
    ∀ (rows : List Row) (db : DynamicDB) (results : List Row) (dbF : DynamicDB),
      validate_rows bad fm mv (rows.map initRow) db = .ok (results, dbF) →
      results.map (fun r => stripAnnotations (rowDrop r "EMAIL"))
        = rows.map stripAnnotations := by
  intro rows
  induction rows with
  | nil =>
    intro db results dbF h
    simp only [List.map_nil, validate_rows] at h
    cases h
    rfl
  | cons r rs ih =>
    intro db results dbF h
    simp only [List.map_cons, validate_rows] at h
    rcases hv : validate_one_lead (initRow r) bad fm db mv with e | t <;> rw [hv] at h
    · simp at h
    · obtain ⟨r1, db1, calls1⟩ := t
      simp only at h
      rcases hrec : validate_rows bad fm mv (rs.map initRow) db1 with e | out2 <;>
        rw [hrec] at h
      · simp at h
      · obtain ⟨rs2, dbF2⟩ := out2
        simp only at h
        cases h
        rw [List.map_cons, List.map_cons, ih db1 _ _ hrec]
        congr 1
        rw [strip_rowDrop_email]
        have := validate_one_lead_strip (initRow r) bad fm db mv (r1, db1, calls1) hv
        rw [this, strip_initRow]

/-- Claim C8: a batch run returns the full annotated batch in the original
input order (each output row agrees with its input row outside the columns
the engine writes or drops), and a second view that is a permutation of
exactly the rows whose status is Valid or Catch-All, sorted ascending by
company name. -/
theorem claim_C8_runner_views (rows : List Row) (bad : List String)
    (fm : List (String × String)) (db : DynamicDB)
    (mv : String → Option (Option Int)) (allv validv : List Row) (dbF : DynamicDB)
    (h : validate_leads rows bad fm db mv = .ok (allv, validv, dbF)) :
    allv.map stripAnnotations = rows.map stripAnnotations
    ∧ validv.Perm (allv.filter
        (fun r => (statusOf r == "Valid") || (statusOf r == "Catch-All")))
    ∧ validv.Pairwise (fun a b => strLeB (companyOf a) (companyOf b) = true) := by
  unfold validate_leads at h
  rcases hrun : validate_rows bad fm mv (rows.map initRow) db with e | out <;>
    rw [hrun] at h
  · simp at h
  · obtain ⟨results, dbF1⟩ := out
    simp only [Except.ok.injEq, Prod.mk.injEq] at h
    obtain ⟨h1, h2, h3⟩ := h
    subst h1
    subst h2
    refine ⟨?_, ?_, ?_⟩
    · simpa [List.map_map, Function.comp]
        using validate_rows_strip bad fm mv rows db results dbF1 hrun
    · exact perm_isortRowsByCompany _
    · exact pairwise_isortRowsByCompany _

/-- Witness for claim C8: a concrete three-row batch (one row resolves
Invalid) whose full view keeps the input order and whose second view holds
exactly the two Valid rows sorted by company. -/
theorem claim_C8_witness :
    ([[("FIRST NAME", "Bob"), ("LAST NAME", "Ray"), ("COMPANY", "Zeta"),
        ("EMAIL STATUS", "Valid"), ("VALIDATED EMAIL", "bob@zeta.com")],
      [("FIRST NAME", "Ann"), ("LAST NAME", "Lee"), ("COMPANY", "Alpha"),
        ("EMAIL STATUS", "Valid"), ("VALIDATED EMAIL", "ann@alpha.com")],
      [("FIRST NAME", "Cat"), ("LAST NAME", "Fox"), ("COMPANY", "Mid"),
        ("EMAIL STATUS", "Invalid"), ("VALIDATED EMAIL", "")]].map stripAnnotations
      = [[("FIRST NAME", "Bob"), ("LAST NAME", "Ray"), ("COMPANY", "Zeta"),
          ("EMAIL", "old@x")],
         [("FIRST NAME", "Ann"), ("LAST NAME", "Lee"), ("COMPANY", "Alpha")],
         [("FIRST NAME", "Cat"), ("LAST NAME", "Fox"), ("COMPANY", "Mid")]].map
          stripAnnotations)
    ∧ ([[("FIRST NAME", "Ann"), ("LAST NAME", "Lee"), ("COMPANY", "Alpha"),
          ("EMAIL STATUS", "Valid"), ("VALIDATED EMAIL", "ann@alpha.com")],
        [("FIRST NAME", "Bob"), ("LAST NAME", "Ray"), ("COMPANY", "Zeta"),
          ("EMAIL STATUS", "Valid"), ("VALIDATED EMAIL", "bob@zeta.com")]] : List Row).Perm
        ([[("FIRST NAME", "Bob"), ("LAST NAME", "Ray"), ("COMPANY", "Zeta"),
            ("EMAIL STATUS", "Valid"), ("VALIDATED EMAIL", "bob@zeta.com")],
          [("FIRST NAME", "Ann"), ("LAST NAME", "Lee"), ("COMPANY", "Alpha"),
            ("EMAIL STATUS", "Valid"), ("VALIDATED EMAIL", "ann@alpha.com")],
          [("FIRST NAME", "Cat"), ("LAST NAME", "Fox"), ("COMPANY", "Mid"),
            ("EMAIL STATUS", "Invalid"), ("VALIDATED EMAIL", "")]].filter
          (fun r => (statusOf r == "Valid") || (statusOf r == "Catch-All")))
    ∧ ([[("FIRST NAME", "Ann"), ("LAST NAME", "Lee"), ("COMPANY", "Alpha"),
          ("EMAIL STATUS", "Valid"), ("VALIDATED EMAIL", "ann@alpha.com")],
        [("FIRST NAME", "Bob"), ("LAST NAME", "Ray"), ("COMPANY", "Zeta"),
          ("EMAIL STATUS", "Valid"), ("VALIDATED EMAIL", "bob@zeta.com")]] : List Row).Pairwise
        (fun a b => strLeB (companyOf a) (companyOf b) = true) :=
  claim_C8_runner_views
    [[("FIRST NAME", "Bob"), ("LAST NAME", "Ray"), ("COMPANY", "Zeta"),
       ("EMAIL", "old@x")],
     [("FIRST NAME", "Ann"), ("LAST NAME", "Lee"), ("COMPANY", "Alpha")],
     [("FIRST NAME", "Cat"), ("LAST NAME", "Fox"), ("COMPANY", "Mid")]]
    [] [] []
    (fun e => if e = "bob@zeta.com" ∨ e = "ann@alpha.com"
              then some (some 1) else some (some 0))
    [[("FIRST NAME", "Bob"), ("LAST NAME", "Ray"), ("COMPANY", "Zeta"),
       ("EMAIL STATUS", "Valid"), ("VALIDATED EMAIL", "bob@zeta.com")],
     [("FIRST NAME", "Ann"), ("LAST NAME", "Lee"), ("COMPANY", "Alpha"),
       ("EMAIL STATUS", "Valid"), ("VALIDATED EMAIL", "ann@alpha.com")],
     [("FIRST NAME", "Cat"), ("LAST NAME", "Fox"), ("COMPANY", "Mid"),
       ("EMAIL STATUS", "Invalid"), ("VALIDATED EMAIL", "")]]
    [[("FIRST NAME", "Ann"), ("LAST NAME", "Lee"), ("COMPANY", "Alpha"),
       ("EMAIL STATUS", "Valid"), ("VALIDATED EMAIL", "ann@alpha.com")],
     [("FIRST NAME", "Bob"), ("LAST NAME", "Ray"), ("COMPANY", "Zeta"),
       ("EMAIL STATUS", "Valid"), ("VALIDATED EMAIL", "bob@zeta.com")]]
    [("zeta.com", [("first", JVal.num 1)]), ("alpha.com", [("first", JVal.num 1)])]
    (by rfl)
